import Mathlib

/-!
A shallow embedding of the core of the "kilo" terminal text editor
(single C translation unit; functions named `editor_*`), together with
proofs about its row store, highlighter, cursor model, search and save
logic.

Modelling conventions:
* bytes are `Nat` values in `[0, 256)`; C strings become `List Nat`
  without the terminating NUL (reads of the terminator are modelled by
  `List.getD _ _ 0`);
* the global `struct editor_config E` becomes an explicit
  `editor_config` value threaded through every operation;
* C `int` fields that can become negative (`idx`) are `Int`; fields that
  the program keeps non-negative are `Nat`;
* `erow.size` and `erow.r_size` are the lengths of the `chars` and
  `render` lists;
* file descriptors, `write`/`ftruncate` results and the interactive
  prompt are oracles passed in as explicit parameters;
* the uninitialised `hl_open_comment` value that `editor_insert_row`
  exposes to `editor_update_row` (the C reads freshly realloc-ed memory
  there) is made explicit as a `g : Bool` parameter.
-/

/-- Convert a string literal to its list of byte values. -/
def bs (s : String) : List Nat := s.toList.map Char.toNat

/-- Highlight tokens, from `enum highlight_tokens`.  `mtch` is `HL_MATCH`. -/
inductive Hl where
  | normal
  | comment
  | mlcomment
  | keyword1
  | keyword2
  | str
  | number
  | mtch
deriving DecidableEq, Repr, Inhabited

/-- A row of display text, from `typedef struct erow`. -/
structure erow where
  idx : Int
  chars : List Nat
  render : List Nat
  hl : List Hl
  hl_open_comment : Bool
deriving DecidableEq, Repr

instance : Inhabited erow := ⟨⟨0, [], [], [], false⟩⟩

/-- A highlight-database entry, from `struct editor_syntax`.
The two flag bits of `flags` are split into two booleans. -/
structure editor_syntax_def where
  filematch : List (List Nat)
  hl_numbers : Bool
  hl_strings : Bool
  scs : List Nat
  mcs : List Nat
  mce : List Nat
  keywords : List (List Nat)
deriving DecidableEq, Repr

/-- The editor state, from `struct editor_config`.  `orig_termios` and
`status_msg_time` (wall-clock time) are not modelled; `num_rows` is
`rows.length`; the active highlight entry `E.syntax` is `syn`. -/
structure editor_config where
  screen_rows : Nat
  screen_cols : Nat
  cx : Nat
  cy : Nat
  desired_rx : Nat
  rx : Nat
  row_off : Nat
  col_off : Nat
  dirty : Bool
  rows : List erow
  filename : Option (List Nat)
  status_msg : String
  syn : Option editor_syntax_def
  term_resized : Bool
deriving Repr

/-- `KILO_TAB_STOP` -/
def KILO_TAB_STOP : Nat := 8

/-- Special key values from `enum special_keys` (all `> 0xff`). -/
def ARROW_LEFT : Nat := 0x1000
def ARROW_RIGHT : Nat := 0x1001
def ARROW_UP : Nat := 0x1002
def ARROW_DOWN : Nat := 0x1003
def DEL_KEY : Nat := 0x1004
def HOME_KEY : Nat := 0x1005
def END_KEY : Nat := 0x1006
def PAGE_UP : Nat := 0x1007
def PAGE_DOWN : Nat := 0x1008
def TERM_RESIZE_KEY : Nat := 0x1009

/-- `isspace` on a byte (C locale). -/
def isspace_b (c : Nat) : Bool :=
  c == 32 || c == 9 || c == 10 || c == 11 || c == 12 || c == 13

/-- `isdigit` on a byte. -/
def isdigit_b (c : Nat) : Bool := decide (48 ≤ c) && decide (c ≤ 57)

/-- `isblank` on a byte. -/
def isblank_b (c : Nat) : Bool := c == 32 || c == 9

/-- `iscntrl` on a key value; key codes `≥ 0x100` are outside the byte
range and classified as not-control, as on the usual C libraries. -/
def iscntrl_b (c : Nat) : Bool := (decide (c < 32) || c == 127) && decide (c ≤ 255)

/-- The separator characters from `is_separator`. -/
def sep_chars : List Nat := bs r",.()+-/*=~%<>[];"

/-- `is_separator`: whitespace, NUL or a punctuation byte. -/
def is_separator (c : Nat) : Bool := isspace_b c || c == 0 || sep_chars.contains c

/-- One step of tab-aware column accounting: the body of the loops of
`editor_row_cx_to_rx` and `editor_row_rx_to_cx`
(`rx += (KILO_TAB_STOP - 1) - (rx % KILO_TAB_STOP); ++rx;`). -/
def rx_step (c rx : Nat) : Nat :=
  if c == 9 then rx + (KILO_TAB_STOP - rx % KILO_TAB_STOP) else rx + 1

/-- Loop of `editor_row_cx_to_rx`: accumulate widths of the first `j`
characters into `rx`. -/
def cx_to_rx_aux : List Nat → Nat → Nat → Nat
  | _, 0, rx => rx
  | [], _ + 1, rx => rx
  | c :: rest, j + 1, rx => cx_to_rx_aux rest j (rx_step c rx)

/-- `editor_row_cx_to_rx`: rendered x-position of cursor offset `cx`. -/
def editor_row_cx_to_rx (chars : List Nat) (cx : Nat) : Nat :=
  cx_to_rx_aux chars cx 0

/-- Loop of `editor_row_rx_to_cx`: returns how many characters are
consumed before the accumulated rendered position exceeds `rx_target`. -/
def rx_to_cx_aux (chars : List Nat) (rx_target rx : Nat) : Nat :=
  match chars with
  | [] => 0
  | c :: rest =>
    let rx' := rx_step c rx
    if rx' > rx_target then 0 else rx_to_cx_aux rest rx_target rx' + 1

/-- `editor_row_rx_to_cx`: cursor offset for rendered position `rx_target`. -/
def editor_row_rx_to_cx (chars : List Nat) (rx_target : Nat) : Nat :=
  rx_to_cx_aux chars rx_target 0

/-- Loop of `editor_update_row`: expand tabs to spaces so that each tab
advances the render index to the next multiple of `KILO_TAB_STOP`. -/
def render_chars_aux : List Nat → Nat → List Nat
  | [], _ => []
  | c :: rest, idx =>
    if c == 9 then
      List.replicate (KILO_TAB_STOP - idx % KILO_TAB_STOP) 32 ++
        render_chars_aux rest (idx + (KILO_TAB_STOP - idx % KILO_TAB_STOP))
    else c :: render_chars_aux rest (idx + 1)

/-- The `render` string computed by `editor_update_row` from `chars`. -/
def render_chars (chars : List Nat) : List Nat := render_chars_aux chars 0

/-- `memset(&hl[i], v, n)` on a token list (in-bounds uses only). -/
def set_range : List Hl → Nat → Nat → Hl → List Hl
  | [], _, _, _ => []
  | x :: xs, 0, n, v => if n = 0 then x :: xs else v :: set_range xs 0 (n - 1) v
  | x :: xs, i + 1, n, v => x :: set_range xs i n v

/-- Fuel-indexed scan for `substr_from`; each step advances `off`, so
fuel `hay.length - off` reaches the end of the haystack. -/
def substr_from_aux (hay needle : List Nat) : Nat → Nat → Option Nat
  | 0, off => if needle.isPrefixOf (hay.drop off) then some off else none
  | fuel + 1, off =>
    if needle.isPrefixOf (hay.drop off) then some off
    else if off < hay.length then substr_from_aux hay needle fuel (off + 1)
    else none

/-- `strstr(&hay[off], needle)` as an offset into `hay` (first position
`≥ off` where `needle` occurs; `hay.length` itself can match an empty
needle, as strstr can match at the terminating NUL). -/
def substr_from (hay : List Nat) (off : Nat) (needle : List Nat) : Option Nat :=
  substr_from_aux hay needle (hay.length - off) off

/-- The keyword loop of `editor_update_syntax`: find the first keyword
that matches at `i` (`|`-suffixed keywords are secondary) followed by a
separator (reading the NUL terminator when the match ends the row).
Returns the matched body length and whether it was secondary. -/
def find_keyword (kws : List (List Nat)) (render : List Nat) (i : Nat) :
    Option (Nat × Bool) :=
  match kws with
  | [] => none
  | kw :: rest =>
    let kw2 := kw.getLast? == some 124
    let body := if kw2 then kw.dropLast else kw
    let klen := body.length
    if decide (klen + i > render.length) then find_keyword rest render i
    else if body.isPrefixOf (render.drop i) && is_separator (render.getD (i + klen) 0) then
      some (klen, kw2)
    else find_keyword rest render i

/-- The `while(i < row->r_size)` scan of `editor_update_syntax`.
State: position `i`, `prev_sep`, `in_string` (0 or the quote byte),
`in_comment`, and the token array being written.  Every iteration
advances `i` by at least one, so `fuel = render.length` makes the
recursion exact.  Returns the tokens and the final `in_comment`. -/
def hl_scan_aux (sy : editor_syntax_def) (render : List Nat) :
    Nat → Nat → Bool → Nat → Bool → List Hl → List Hl × Bool
  | 0, _, _, _, in_comment, hl => (hl, in_comment)
  | fuel + 1, i, prev_sep, in_string, in_comment, hl =>
    if decide (i ≥ render.length) then (hl, in_comment)
    else
      let c := render.getD i 0
      let prev_hl := if i > 0 then hl.getD (i - 1) Hl.normal else Hl.normal
      if sy.scs.length != 0 && in_string == 0 && !in_comment &&
          sy.scs.isPrefixOf (render.drop i) then
        (set_range hl i (render.length - i) Hl.comment, in_comment)
      else if sy.mcs.length != 0 && sy.mce.length != 0 && in_string == 0 && in_comment then
        if sy.mce.isPrefixOf (render.drop i) then
          hl_scan_aux sy render fuel (i + sy.mce.length) true in_string false
            (set_range hl i sy.mce.length Hl.mlcomment)
        else
          hl_scan_aux sy render fuel (i + 1) prev_sep in_string in_comment
            (set_range hl i 1 Hl.mlcomment)
      else if sy.mcs.length != 0 && sy.mce.length != 0 && in_string == 0 && !in_comment &&
          sy.mcs.isPrefixOf (render.drop i) then
        hl_scan_aux sy render fuel (i + sy.mcs.length) prev_sep in_string true
          (set_range hl i sy.mcs.length Hl.mlcomment)
      else if sy.hl_strings && in_string != 0 then
        let hl1 := set_range hl i 1 Hl.str
        if c == 92 && decide (i + 1 < render.length) then
          hl_scan_aux sy render fuel (i + 2) prev_sep in_string in_comment
            (set_range hl1 (i + 1) 1 Hl.str)
        else
          hl_scan_aux sy render fuel (i + 1) true (if c == in_string then 0 else in_string)
            in_comment hl1
      else if sy.hl_strings && in_string == 0 && (c == 34 || c == 39) then
        hl_scan_aux sy render fuel (i + 1) prev_sep c in_comment (set_range hl i 1 Hl.str)
      else if sy.hl_numbers &&
          ((isdigit_b c && (prev_sep || prev_hl == Hl.number)) ||
           (c == 46 && prev_hl == Hl.number)) then
        hl_scan_aux sy render fuel (i + 1) false in_string in_comment
          (set_range hl i 1 Hl.number)
      else if prev_sep then
        match find_keyword sy.keywords render i with
        | some (klen, kw2) =>
          hl_scan_aux sy render fuel (i + klen) false in_string in_comment
            (set_range hl i klen (if kw2 then Hl.keyword2 else Hl.keyword1))
        | none =>
          hl_scan_aux sy render fuel (i + 1) (is_separator c) in_string in_comment hl
      else
        hl_scan_aux sy render fuel (i + 1) (is_separator c) in_string in_comment hl

/-- The scan of `editor_update_syntax` over one row's render, starting
from the previous row's open-comment state. -/
def hl_scan (sy : editor_syntax_def) (render : List Nat) (in_comment0 : Bool) :
    List Hl × Bool :=
  hl_scan_aux sy render render.length 0 true 0 in_comment0
    (List.replicate render.length Hl.normal)

/-- `editor_update_syntax` on the row at array position `at_`.  As in
the C, neighbour rows are addressed through the row's own `idx` field
(`E.row[row->idx - 1]`, `E.row[row->idx + 1]`); when the open-comment
flag changes the function re-highlights `E.row[row->idx + 1]`
recursively.  The C recursion has no fuel; `update_hl_aux_fuel` below
shows that whenever every row's `idx` equals its position, fuel
`rows.length - at_` makes this model exact. -/
def editor_update_hl_aux (syn : Option editor_syntax_def) :
    Nat → List erow → Nat → List erow
  | 0, rows, _ => rows
  | fuel + 1, rows, at_ =>
    match rows[at_]? with
    | none => rows
    | some row =>
      match syn with
      | none => rows.set at_ { row with hl := List.replicate row.render.length Hl.normal }
      | some sy =>
        let in_comment0 : Bool :=
          decide (row.idx > 0) && (rows.getD (row.idx - 1).toNat default).hl_open_comment
        let scanned := hl_scan sy row.render in_comment0
        let changed : Bool := row.hl_open_comment != scanned.2
        let rows1 := rows.set at_ { row with hl := scanned.1, hl_open_comment := scanned.2 }
        if changed && decide (row.idx + 1 < (rows.length : Int)) then
          editor_update_hl_aux syn fuel rows1 (row.idx + 1).toNat
        else rows1

/-- `editor_update_syntax` at state level (fuel `rows.length`). -/
def editor_update_hl (at_ : Nat) (s : editor_config) : editor_config :=
  { s with rows := editor_update_hl_aux s.syn s.rows.length s.rows at_ }

/-- `editor_update_row` on the row at position `at_`: recompute `render`
from `chars`, then re-run the highlighter. -/
def editor_update_row (at_ : Nat) (s : editor_config) : editor_config :=
  match s.rows[at_]? with
  | none => s
  | some row =>
    editor_update_hl at_
      { s with rows := s.rows.set at_ { row with render := render_chars row.chars } }

/-- `editor_insert_row(at, buf, len)`.  The C sequence is: bounds check;
shift rows `[at, num_rows)` up and increment their `idx`; initialise the
new row (`idx = at`, `chars` = first `len` bytes of `buf`); run
`editor_update_row` (which reads the still-uninitialised
`hl_open_comment`, modelled by `g`); set `dirty`; finally reset the new
row's `hl_open_comment` to 0 — note that this reset happens AFTER the
highlighter ran. -/
def editor_insert_row (at_ : Nat) (buf : List Nat) (len : Nat) (g : Bool)
    (s : editor_config) : editor_config :=
  if decide (at_ > s.rows.length) then s
  else
    let shifted := (s.rows.drop at_).map fun r => { r with idx := r.idx + 1 }
    let newRow : erow :=
      { idx := at_, chars := buf.take len, render := [], hl := [], hl_open_comment := g }
    let s1 := editor_update_row at_ { s with rows := s.rows.take at_ ++ newRow :: shifted }
    let s2 := { s1 with dirty := true }
    match s2.rows[at_]? with
    | some row => { s2 with rows := s2.rows.set at_ { row with hl_open_comment := false } }
    | none => s2

/-- `editor_del_row(at)`.  After the `memmove` the C runs
`for(i = at; i < num_rows; ++i) E.row[at].idx--;` — the body decrements
the row at position `at` on every iteration, i.e. `num_rows - at` times
in total, and never touches the other shifted rows. -/
def editor_del_row (at_ : Nat) (s : editor_config) : editor_config :=
  if decide (at_ ≥ s.rows.length) then s
  else
    let rows1 := s.rows.take at_ ++ s.rows.drop (at_ + 1)
    let rows2 :=
      match rows1[at_]? with
      | some r => rows1.set at_ { r with idx := r.idx - ((rows1.length : Int) - at_) }
      | none => rows1
    { s with rows := rows2, dirty := true }

/-- `editor_row_append_string(&E.row[at_], str, len)`. -/
def editor_row_append_string (at_ : Nat) (str : List Nat) (len : Nat)
    (s : editor_config) : editor_config :=
  match s.rows[at_]? with
  | none => s
  | some row =>
    let s1 := editor_update_row at_
      { s with rows := s.rows.set at_ { row with chars := row.chars ++ str.take len } }
    { s1 with dirty := true }

/-- `editor_row_insert_char(&E.row[at_], pos, c)` (`pos` is clipped to
`[0, size]`). -/
def editor_row_insert_char (at_ pos : Nat) (c : Nat) (s : editor_config) : editor_config :=
  match s.rows[at_]? with
  | none => s
  | some row =>
    let pos := if decide (pos > row.chars.length) then row.chars.length else pos
    let row1 := { row with chars := row.chars.take pos ++ c :: row.chars.drop pos }
    let s1 := editor_update_row at_ { s with rows := s.rows.set at_ row1 }
    { s1 with dirty := true }

/-- `editor_row_del_char(&E.row[at_], pos)` (out-of-bounds is a no-op). -/
def editor_row_del_char (at_ pos : Nat) (s : editor_config) : editor_config :=
  match s.rows[at_]? with
  | none => s
  | some row =>
    if decide (pos ≥ row.chars.length) then s
    else
      let row1 := { row with chars := row.chars.take pos ++ row.chars.drop (pos + 1) }
      let s1 := editor_update_row at_ { s with rows := s.rows.set at_ row1 }
      { s1 with dirty := true }

/-- `editor_insert_char(c)`. -/
def editor_insert_char (c : Nat) (g : Bool) (s : editor_config) : editor_config :=
  let s := if s.cy = s.rows.length then editor_insert_row s.rows.length [] 0 g s else s
  let s := editor_row_insert_char s.cy s.cx c s
  { s with cx := s.cx + 1 }

/-- `editor_del_char()`. -/
def editor_del_char (s : editor_config) : editor_config :=
  if s.cy = s.rows.length then s
  else if s.cx = 0 ∧ s.cy = 0 then s
  else
    match s.rows[s.cy]? with
    | none => s
    | some row =>
      if s.cx > 0 then
        let s := editor_row_del_char s.cy (s.cx - 1) s
        { s with cx := s.cx - 1 }
      else
        let s := { s with cx := (s.rows.getD (s.cy - 1) default).chars.length }
        let s := editor_row_append_string (s.cy - 1) row.chars row.chars.length s
        let s := editor_del_row s.cy s
        { s with cy := s.cy - 1 }

/-- The leading-blank count of `editor_insert_new_line`. -/
def count_leading_blank (chars : List Nat) : Nat := (chars.takeWhile isblank_b).length

/-- `editor_insert_new_line()`: at column 0 insert an empty row above;
otherwise split the current row, replicating its leading blanks into the
new row (auto-indent), truncating the old row to `cx` characters (or to
0 when the cursor sits inside the leading blanks). -/
def editor_insert_new_line (g : Bool) (s : editor_config) : editor_config :=
  if s.cx = 0 then
    let s := editor_insert_row s.cy [] 0 g s
    { s with cy := s.cy + 1, cx := 0 }
  else
    match s.rows[s.cy]? with
    | none => s
    | some row =>
      let n_blank0 := count_leading_blank row.chars
      let n_blank := if decide (n_blank0 > s.cx) then s.cx else n_blank0
      let s := editor_insert_row (s.cy + 1) row.chars n_blank g s
      match s.rows[s.cy]? with
      | none => s
      | some row2 =>
        let s := editor_row_append_string (s.cy + 1) (row2.chars.drop s.cx)
          (row2.chars.length - s.cx) s
        match s.rows[s.cy]? with
        | none => s
        | some row3 =>
          let newSize := if s.cx = n_blank then 0 else s.cx
          let s := editor_update_row s.cy
            { s with rows := s.rows.set s.cy { row3 with chars := row3.chars.take newSize } }
          { s with cy := s.cy + 1, cx := n_blank }

/-- `editor_scroll()`: recompute `rx` and clamp both scroll offsets so
the cursor stays on screen. -/
def editor_scroll (s : editor_config) : editor_config :=
  let rx := if s.cy < s.rows.length then
      editor_row_cx_to_rx (s.rows.getD s.cy default).chars s.cx
    else 0
  let row_off := if s.cy < s.row_off then s.cy else s.row_off
  let row_off := if decide (s.cy ≥ row_off + s.screen_rows) then s.cy + 1 - s.screen_rows
    else row_off
  let col_off := if rx < s.col_off then rx else s.col_off
  let col_off := if decide (rx ≥ col_off + s.screen_cols) then rx + 1 - s.screen_cols
    else col_off
  { s with rx := rx, row_off := row_off, col_off := col_off }

/-- `editor_move_cursor(key)`. -/
def editor_move_cursor (key : Nat) (s : editor_config) : editor_config :=
  let row? := s.rows[s.cy]?
  let s :=
    if key = ARROW_LEFT then
      if s.cx > 0 then { s with cx := s.cx - 1 }
      else if s.cy > 0 then
        let s := { s with cy := s.cy - 1 }
        if s.cy < s.rows.length then
          { s with cx := (s.rows.getD s.cy default).chars.length }
        else s
      else s
    else if key = ARROW_RIGHT then
      match row? with
      | some row =>
        if s.cx < row.chars.length then { s with cx := s.cx + 1 }
        else if s.cx = row.chars.length ∧ s.cy < s.rows.length then
          { s with cy := s.cy + 1, cx := 0 }
        else s
      | none => s
    else if key = ARROW_UP then
      if s.cy > 0 then { s with cy := s.cy - 1 } else s
    else if key = ARROW_DOWN then
      if s.cy < s.rows.length then { s with cy := s.cy + 1 } else s
    else s
  let s :=
    if key = ARROW_UP ∨ key = ARROW_DOWN then
      { s with cx :=
          match s.rows[s.cy]? with
          | some row => editor_row_rx_to_cx row.chars s.desired_rx
          | none => 0 }
    else s
  let rowlen := match s.rows[s.cy]? with
    | some row => row.chars.length
    | none => 0
  if s.cx > rowlen then { s with cx := rowlen } else s

/-- Iterate a function `n` times (the `while(times--)` loop of the
PAGE_UP/PAGE_DOWN case). -/
def iterate_op (n : Nat) (f : editor_config → editor_config) (s : editor_config) :
    editor_config :=
  match n with
  | 0 => s
  | n + 1 => iterate_op n f (f s)

/-- The epilogue of `editor_process_key`: after a non-vertical key,
reset `desired_rx` to the rendered position of the current cursor (0
past end of file). -/
def desired_rx_reset (s : editor_config) : editor_config :=
  if s.cy < s.rows.length then
    { s with desired_rx := editor_row_cx_to_rx ((s.rows.getD s.cy default).chars) s.cx }
  else { s with desired_rx := 0 }

/-- The Ctrl-Q case of `editor_process_key`.  The C keeps a static
`quit_times` counter (reset to `KILO_QUIT_TIMES` by every other key):
with a dirty buffer and warnings left, Ctrl-Q sets the unsaved-changes
warning status, decrements the counter and `return`s — before the
`desired_rx` epilogue runs; otherwise it calls `exit(EXIT_SUCCESS)`.
`none` models the process exit; `some` carries the post-warning state
and the decremented counter. -/
def editor_quit_key (quit_times : Nat) (s : editor_config) : Option (editor_config × Nat) :=
  if s.dirty = true ∧ quit_times > 0 then
    some ({ s with status_msg := "File has unsaved changes" }, quit_times - 1)
  else none

/-- The dispatcher `editor_process_key` for one key `c`.  Ctrl-Q
(`c = 17`) is `editor_quit_key` above: both of its outcomes (the
warning `return` and the process exit) leave `editor_process_key`
before the `desired_rx` epilogue, so here `c = 17` returns the state
unchanged WITHOUT the epilogue — the warning status and quit counter
live in `editor_quit_key`.  The environment-dependent commands Ctrl-S
(`editor_save`) and Ctrl-F (`editor_find`) are modelled by those
dedicated functions and leave the state unchanged here; their `switch`
cases `break`, so they do reach the epilogue, as modelled.  Every other
`switch` case is modelled directly.  After dispatch, unless the key was
a vertical motion (ARROW_UP/DOWN, PAGE_UP/DOWN), `desired_rx` is reset
to the rendered position of the (new) cursor, or 0 past end of file. -/
def editor_process_key (c : Nat) (g : Bool) (s : editor_config) : editor_config :=
  let vert := c = ARROW_UP ∨ c = ARROW_DOWN ∨ c = PAGE_UP ∨ c = PAGE_DOWN
  if c = 17 then s
  else
    let s :=
      if c = TERM_RESIZE_KEY then { s with term_resized := false }
      else if c = 19 ∨ c = 6 then s
      else if c = 11 then editor_del_row s.cy s
      else if c = 13 then editor_insert_new_line g s
      else if c = 8 ∨ c = 127 ∨ c = DEL_KEY then
        editor_del_char (if c = DEL_KEY then editor_move_cursor ARROW_RIGHT s else s)
      else if c = 12 ∨ c = 27 then s
      else if c = HOME_KEY then { s with cx := 0 }
      else if c = END_KEY then
        if s.cy < s.rows.length then
          { s with cx := (s.rows.getD s.cy default).chars.length }
        else s
      else if c = PAGE_UP ∨ c = PAGE_DOWN then
        let s := if c = PAGE_UP then { s with cy := s.row_off }
          else { s with cy := s.row_off + s.screen_rows - 1 }
        iterate_op s.screen_rows
          (editor_move_cursor (if c = PAGE_UP then ARROW_UP else ARROW_DOWN)) s
      else if c = ARROW_UP ∨ c = ARROW_DOWN ∨ c = ARROW_LEFT ∨ c = ARROW_RIGHT then
        editor_move_cursor c s
      else if c < 0x100 then editor_insert_char c g s
      else s
    if vert then s else desired_rx_reset s

/-- The built-in C filetype entry of `HLDB` (`C_HL_extensions`,
`C_HL_keywords`, flags `HL_HIGHLIGHT_NUMBERS | HL_HIGHLIGHT_STRINGS`,
comments `//`, `/*`, `*/`). -/
def c_hl_def : editor_syntax_def :=
  { filematch := [bs r".c", bs r".h", bs r".cpp", bs r".hpp"]
    hl_numbers := true
    hl_strings := true
    scs := bs r"//"
    mcs := bs r"/*"
    mce := bs r"*/"
    keywords :=
      [bs r"switch", bs r"if", bs r"while", bs r"for", bs r"break", bs r"continue",
       bs r"return", bs r"else", bs r"struct", bs r"union", bs r"typedef", bs r"static",
       bs r"enum", bs r"class", bs r"case",
       bs r"int|", bs r"long|", bs r"double|", bs r"float|", bs r"char|",
       bs r"unsigned|", bs r"signed|", bs r"void|"] }

/-- One pattern test of `editor_select_syntax_highlight`: the first
`strstr` occurrence of the pattern must either not start with a dot or
sit at the very end of the filename. -/
def pattern_matches (fname pat : List Nat) : Bool :=
  match substr_from fname 0 pat with
  | none => false
  | some j => pat.getD 0 0 != 46 || decide (j + pat.length = fname.length)

/-- `editor_select_syntax_highlight()`: reset the association, then scan
the (single-entry) highlight database; on a filename match activate the
entry and re-highlight every row in order. -/
def editor_select_hl (s : editor_config) : editor_config :=
  let s := { s with syn := none }
  match s.filename with
  | none => s
  | some fname =>
    if c_hl_def.filematch.any (fun pat => pattern_matches fname pat) then
      let s := { s with syn := some c_hl_def }
      (List.range s.rows.length).foldl (fun st fr => editor_update_hl fr st) s
    else s

/-- The newline stripping of `editor_open`'s read loop: drop one
trailing `\n` or `\r`. -/
def strip_newline (line : List Nat) : List Nat :=
  if line.length > 0 ∧ (line.getLast? = some 10 ∨ line.getLast? = some 13) then
    line.dropLast
  else line

/-- `editor_open(filename)`: set the filename, select the highlight
entry, append one row per line (newline stripped), clear `dirty`. -/
def editor_open (fname : List Nat) (lines : List (List Nat)) (g : Bool)
    (s : editor_config) : editor_config :=
  let s := editor_select_hl { s with filename := some fname }
  let s := lines.foldl
    (fun st line =>
      let l := strip_newline line
      editor_insert_row st.rows.length l l.length g st) s
  { s with dirty := false }

/-- `editor_rows_to_string`: each row's `chars` followed by one `\n`. -/
def editor_rows_to_string (rows : List erow) : List Nat :=
  (rows.map (fun r => r.chars ++ [10])).flatten

/-- The `totlen` computation of `editor_rows_to_string`:
`totlen += E.row[j].size + 1` over all rows. -/
def editor_rows_to_string_len (rows : List erow) : Nat :=
  rows.foldl (fun t r => t + (r.chars.length + 1)) 0

/-- Outcomes of the external calls made by `editor_save`: the filename
prompt (`editor_prompt` with no callback), `open(2)`, `ftruncate(2)` and
whether `write(2)` wrote the full buffer length. -/
structure save_env where
  prompt_result : Option (List Nat)
  open_ok : Bool
  truncate_ok : Bool
  write_ok : Bool

/-- The part of `editor_save` after a filename is available: select the
highlight entry, build the buffer, then `open`/`ftruncate`/`write`.
Success clears `dirty` and reports the byte count; every failure leaves
`dirty` alone and reports an error status. -/
def editor_save_with_filename (env : save_env) (s : editor_config) : editor_config :=
  let s := editor_select_hl s
  if env.open_ok then
    if env.truncate_ok then
      if env.write_ok then { s with status_msg := "bytes written", dirty := false }
      else { s with status_msg := "error saving" }
    else { s with status_msg := "error saving" }
  else { s with status_msg := "error saving" }

/-- `editor_save()`: prompt for a filename when there is none (an
aborted prompt reports "Save aborted" and returns), then write out. -/
def editor_save (env : save_env) (s : editor_config) : editor_config :=
  match s.filename with
  | none =>
    match env.prompt_result with
    | none => { s with status_msg := "Save aborted" }
    | some fn => editor_save_with_filename env { s with filename := some fn }
  | some _ => editor_save_with_filename env s

/-- The `static` variables of `editor_find_callback`. -/
structure search_state where
  start_match_rx : Nat
  start_match_row : Nat
  direction : Int
  saved_hl_row : Nat
  saved_hl : Option (List Hl)
deriving Repr

/-- Initial values of the statics (and their value at the start of any
search session: the callback restores `saved_hl` to `NULL` and the
start/direction fields before every session ends). -/
def search_state_init : search_state :=
  { start_match_rx := 0, start_match_row := 0, direction := 1,
    saved_hl_row := 0, saved_hl := none }

/-- The `for(i = 0; i < E.num_rows; ++i)` search loop of
`editor_find_callback`: look for `query` in the current row's render
from `current_rx`; on a hit move the cursor, force the matching line to
the top (`row_off = num_rows`), save the row's `hl` and overlay
`HL_MATCH`; otherwise step `current_row` by `direction` with
wrap-around. -/
def editor_find_loop (query : List Nat) :
    Nat → Nat → Int → editor_config → search_state → editor_config × search_state
  | 0, _, _, s, ss => (s, ss)
  | fuel + 1, current_rx, current_row, s, ss =>
    match s.rows[current_row.toNat]? with
    | none => (s, ss)
    | some row =>
      match substr_from row.render current_rx query with
      | some match_rx =>
        let ss1 : search_state :=
          { start_match_rx := match_rx + query.length
            start_match_row := current_row.toNat
            direction := ss.direction
            saved_hl_row := current_row.toNat
            saved_hl := some row.hl }
        let row1 := { row with hl := set_range row.hl match_rx query.length Hl.mtch }
        ({ s with cy := current_row.toNat
                  cx := editor_row_rx_to_cx row.chars match_rx
                  row_off := s.rows.length
                  rows := s.rows.set current_row.toNat row1 }, ss1)
      | none =>
        let next := current_row + ss.direction
        let next := if next = -1 then (s.rows.length : Int) - 1
          else if next = (s.rows.length : Int) then 0 else next
        editor_find_loop query fuel 0 next s ss

/-- `editor_find_callback(query, key)`: restore a previously saved `hl`
line; classify the key (arrows set the direction, control or special
keys end the session and reset the statics, anything else restarts the
scan from the top); then run the search loop. -/
def editor_find_callback (query : List Nat) (key : Nat) (s : editor_config)
    (ss : search_state) : editor_config × search_state :=
  let restored :=
    match ss.saved_hl with
    | some saved =>
      (match s.rows[ss.saved_hl_row]? with
       | some row => { s with rows := s.rows.set ss.saved_hl_row { row with hl := saved } }
       | none => s,
       { ss with saved_hl := none })
    | none => (s, ss)
  let s := restored.1
  let ss := restored.2
  if key = ARROW_RIGHT ∨ key = ARROW_DOWN then
    let ss := { ss with direction := 1 }
    editor_find_loop query s.rows.length ss.start_match_rx (ss.start_match_row : Int) s ss
  else if key = ARROW_LEFT ∨ key = ARROW_UP then
    let ss := { ss with direction := -1 }
    editor_find_loop query s.rows.length ss.start_match_rx (ss.start_match_row : Int) s ss
  else if iscntrl_b key || decide (key ≥ 0x100) then
    (s, { ss with start_match_rx := 0, start_match_row := 0, direction := 1 })
  else
    let ss := { ss with start_match_rx := 0, start_match_row := 0, direction := 1 }
    editor_find_loop query s.rows.length ss.start_match_rx (ss.start_match_row : Int) s ss

/-- `editor_prompt` specialised to the find callback.  Each iteration
sets the status message, refreshes the screen (whose only state effect
is `editor_scroll`), reads one key and handles it: ESC/Ctrl-C cancel
(callback then return no string), BACKSPACE drops a byte (skipping the
callback when the buffer is empty), ENTER accepts a non-empty buffer,
printable bytes append; all non-returning paths invoke the callback.
`none` means the scripted key list ran out (the C would keep blocking on
the keyboard). -/
def editor_prompt_find :
    List Nat → List Nat → editor_config → search_state →
    Option (Option (List Nat) × editor_config × search_state)
  | [], _, _, _ => none
  | c :: keys, buf, s, ss =>
    let s := editor_scroll { s with status_msg := "Search (ESC/Ctrl-C cancels)" }
    if c = 27 ∨ c = 3 then
      let r := editor_find_callback buf c { s with status_msg := "" } ss
      some (none, r.1, r.2)
    else if c = 127 then
      if buf = [] then editor_prompt_find keys buf s ss
      else
        let buf := buf.dropLast
        let r := editor_find_callback buf c s ss
        editor_prompt_find keys buf r.1 r.2
    else if c = 13 then
      if buf ≠ [] then
        let r := editor_find_callback buf c { s with status_msg := "" } ss
        some (some buf, r.1, r.2)
      else
        let r := editor_find_callback buf c s ss
        editor_prompt_find keys buf r.1 r.2
    else
      let buf := if !iscntrl_b c && decide (c ≤ 0xff) then buf ++ [c] else buf
      let r := editor_find_callback buf c s ss
      editor_prompt_find keys buf r.1 r.2

/-- `editor_find()`: save `(cx, cy, row_off, col_off)`, run the prompt
with the find callback, and restore the saved quadruple when the user
cancelled. -/
def editor_find (keys : List Nat) (s : editor_config) : Option editor_config :=
  let scx := s.cx
  let scy := s.cy
  let srow_off := s.row_off
  let scol_off := s.col_off
  match editor_prompt_find keys [] s search_state_init with
  | none => none
  | some (some _q, s1, _ss) => some s1
  | some (none, s1, _ss) =>
    some { s1 with cx := scx, cy := scy, row_off := srow_off, col_off := scol_off }

/-- `init_editor()` with given usable screen size. -/
def init_editor (sr sc : Nat) : editor_config :=
  { screen_rows := sr, screen_cols := sc, cx := 0, cy := 0, desired_rx := 0, rx := 0,
    row_off := 0, col_off := 0, dirty := false, rows := [], filename := none,
    status_msg := "", syn := none, term_resized := false }

/-- Invariant 2 of the data model: every row's `idx` field equals its
position in the row array. -/
def idx_ok (rows : List erow) : Prop :=
  ∀ i, i < rows.length → (rows.getD i default).idx = (i : Int)

instance (rows : List erow) : Decidable (idx_ok rows) := by
  unfold idx_ok; infer_instance

/-- Invariant 4 of the data model (cursor bounds): `cy ∈ [0, num_rows]`,
`cx ∈ [0, rows[cy].size]` inside the file and `cx = 0` past its end. -/
def cursor_ok (s : editor_config) : Prop :=
  s.cy ≤ s.rows.length ∧
  (match s.rows[s.cy]? with
   | some row => s.cx ≤ row.chars.length
   | none => s.cx = 0)

instance (s : editor_config) : Decidable (cursor_ok s) := by
  unfold cursor_ok
  cases s.rows[s.cy]? <;> exact instDecidableAnd

/-- Invariant 1 of the data model: `len(hl) = len(render)` on every row. -/
def hl_len_ok (rows : List erow) : Prop :=
  ∀ i, i < rows.length →
    ((rows.getD i default).hl).length = ((rows.getD i default).render).length

instance (rows : List erow) : Decidable (hl_len_ok rows) := by
  unfold hl_len_ok; infer_instance

/-- The per-row data the find callback must never change: everything
except the `hl` overlay (`idx`, `chars`, `render`, `hl_open_comment`). -/
def row_core (r : erow) : Int × List Nat × List Nat × Bool :=
  (r.idx, r.chars, r.render, r.hl_open_comment)

/-- The state relation maintained through a whole search session
relative to the state `s0` at `editor_find` entry: row cores are
untouched; the `hl` arrays agree with `s0` outside the (at most one) row
whose pre-overlay tokens sit in `saved_hl`; `hl` stays parallel to
`render`. -/
def find_inv (s0 s : editor_config) (ss : search_state) : Prop :=
  s.rows.map row_core = s0.rows.map row_core ∧
  (match ss.saved_hl with
   | none => s.rows.map erow.hl = s0.rows.map erow.hl
   | some sv => ss.saved_hl_row < s.rows.length ∧
       (s.rows.map erow.hl).set ss.saved_hl_row sv = s0.rows.map erow.hl)

/-- The editor fields the find callback may touch are `cx`, `cy`,
`row_off` and row `hl` arrays; `search_frame s s'` says everything else
of `s'` agrees with `s`. -/
def search_frame (s s' : editor_config) : Prop :=
  s'.rows.map row_core = s.rows.map row_core ∧
  s'.dirty = s.dirty ∧ s'.col_off = s.col_off ∧ s'.desired_rx = s.desired_rx ∧
  s'.rx = s.rx ∧ s'.filename = s.filename ∧ s'.status_msg = s.status_msg ∧
  s'.syn = s.syn ∧ s'.screen_rows = s.screen_rows ∧ s'.screen_cols = s.screen_cols ∧
  s'.term_resized = s.term_resized

/-- A fresh editor on a 22×80 usable screen. -/
def e22 : editor_config := init_editor 22 80

/-- A tab-free row: `n` copies of the byte `a` (97), with its render and
highlight arrays as `editor_update_row` would produce them. -/
def mkrow (i : Int) (n : Nat) : erow :=
  { idx := i, chars := List.replicate n 97, render := List.replicate n 97,
    hl := List.replicate n Hl.normal, hl_open_comment := false }

/-- Three empty rows appended to an empty buffer, then `editor_del_row(0)`
(the concrete input for claim C1). -/
def c1_state (g : Bool) : editor_config :=
  editor_del_row 0
    (editor_insert_row 2 [] 0 g (editor_insert_row 1 [] 0 g (editor_insert_row 0 [] 0 g e22)))

/-- The editor after opening a two-line `.c` file whose first line opens
a multi-line comment that the second line closes (claim C2). -/
def c2_state (g : Bool) : editor_config :=
  editor_open (bs r"x.c") [bs r"/* open", bs r"closed */ x"] g e22

/-- A buffer holding the single row `abc` with the cursor at its end
(claim C3). -/
def c3_state : editor_config := { e22 with rows := [mkrow 0 3], cx := 3 }

/-- A 20-character row above a 10-character row above a 30-character
row, all tab-free, with the cursor on the top row (claims C5). -/
def c5_state (cx drx : Nat) : editor_config :=
  { e22 with rows := [mkrow 0 20, mkrow 1 10, mkrow 2 30], cx := cx, desired_rx := drx }

/-- The editor after typing `abc`, ENTER, `de` into an empty buffer
(claim C6). -/
def c6_state : editor_config :=
  [97, 98, 99, 13, 100, 101].foldl (fun st c => editor_process_key c false st) e22

/-- A save environment in which `open(2)` fails (claim C7's witness). -/
def env_fail : save_env :=
  { prompt_result := none, open_ok := false, truncate_ok := false, write_ok := true }

/-- A dirty one-row buffer with a filename (claim C7's witness). -/
def c7_state : editor_config :=
  { e22 with rows := [mkrow 0 2], filename := some (bs r"x.c"), dirty := true }

/-- A clean two-character one-row buffer with the cursor at column 1
(claim C8's witness). -/
def w8state : editor_config := { e22 with rows := [mkrow 0 2], cx := 1 }

/-- `w8state` after one prompt iteration that is immediately cancelled:
the status message was set and cleared again and `editor_scroll` ran
once (recomputing `rx`); nothing else changed. -/
def w8mid : editor_config := { w8state with status_msg := "", rx := 1 }

/-! ## General list lemmas -/

theorem list_set_self {α : Type _} (l : List α) (i : Nat) (a : α) (h : l[i]? = some a) :
    l.set i a = l := by
  induction l generalizing i with
  | nil => simp at h
  | cons x xs ih =>
    cases i with
    | zero => simp_all
    | succ n => simp_all

theorem set_range_length (l : List Hl) (i n : Nat) (v : Hl) :
    (set_range l i n v).length = l.length := by
  induction l generalizing i n with
  | nil => simp [set_range]
  | cons x xs ih =>
    cases i with
    | zero =>
      by_cases hn : n = 0
      · simp [set_range, hn]
      · simp [set_range, hn, ih]
    | succ j => simp [set_range, ih]

theorem list_getD_set_ne {α : Type _} (l : List α) (i j : Nat) (a d : α) (h : i ≠ j) :
    (l.set i a).getD j d = l.getD j d := by
  rw [List.getD_eq_getElem?_getD, List.getD_eq_getElem?_getD, List.getElem?_set_ne h]

theorem list_getD_of_getElem? {α : Type _} (l : List α) (i : Nat) (a d : α)
    (h : l[i]? = some a) : l.getD i d = a := by
  rw [List.getD_eq_getElem?_getD, h]; rfl

/-- Replacing a row by a copy that differs only in `hl` (and possibly
`hl_open_comment`-unrelated fields equal to the old ones) does not
change the mapped row cores. -/
theorem map_core_set_hl (rows : List erow) (i : Nat) (row : erow) (hl1 : List Hl)
    (h : rows[i]? = some row) :
    (rows.set i { row with hl := hl1 }).map row_core = rows.map row_core := by
  rw [List.map_set]
  exact list_set_self _ i _ (by rw [List.getElem?_map, h]; rfl)

theorem map_hl_set (rows : List erow) (i : Nat) (row : erow) (hl1 : List Hl) :
    (rows.set i { row with hl := hl1 }).map erow.hl = (rows.map erow.hl).set i hl1 := by
  rw [List.map_set]

/-! ## C1: row indices after `editor_del_row` -/

/-- Claim C1 (status: code_bug).  Insert three rows into an empty buffer
and delete row 0 — an in-bounds sequence of row-store operations.  The
idx-fixup loop of `editor_del_row` decrements `E.row[at].idx` on every
iteration instead of `E.row[i].idx`, so the rows end with `idx` values
`[-1, 2]` instead of `[0, 1]`: the claimed invariant
`r.idx == index_of(r)` is violated, and the `idx` of the second shifted
row was never decremented. -/
theorem editor_del_row_idx_code_bug (g : Bool) :
    (c1_state g).rows.map erow.idx = [-1, 2] ∧ ¬ idx_ok (c1_state g).rows := by
  cases g <;> exact ⟨by decide, by decide⟩

/-! ## C2: `hl_open_comment` after loading a file -/

/-- Claim C2 (status: code_bug).  Opening a `.c` file with the two rows
`/* open` and `closed */ x`: the highlighter scan of row 0 does end in
an open multi-line comment (third conjunct), and it marks row 0's bytes
MLCOMMENT (fourth conjunct) — but `editor_insert_row` resets
`hl_open_comment` to 0 AFTER `editor_update_row` has run, so the
computed flag is discarded: row 0 is left with `hl_open_comment =
false` and row 1 is highlighted entirely NORMAL, contradicting the
claim (`g` is the uninitialised flag value the C exposes; the outcome is
the same for both values). -/
theorem editor_insert_row_hl_open_comment_code_bug (g : Bool) :
    ((c2_state g).rows.getD 0 default).hl_open_comment = false ∧
    ((c2_state g).rows.getD 1 default).hl = List.replicate 11 Hl.normal ∧
    (hl_scan c_hl_def ((c2_state g).rows.getD 0 default).render false).2 = true ∧
    ((c2_state g).rows.getD 0 default).hl = List.replicate 7 Hl.mlcomment := by
  cases g <;> exact ⟨by decide, by decide, by decide, by decide⟩

/-! ## C3: cursor bounds under `editor_process_key` -/

/-- Claim C3 (status: code_bug).  With the single row `abc` and the
cursor at its end (`cy = 0`, `cx = 3`) the cursor-bounds invariant
holds; pressing Ctrl-K (`editor_del_row(E.cy)`) empties the buffer but
leaves `cx = 3`, so afterwards `cy == num_rows == 0` with `cx ≠ 0`: the
dispatcher does not preserve the invariant. -/
theorem ctrl_k_cursor_bounds_code_bug :
    cursor_ok c3_state ∧
    ¬ cursor_ok (editor_process_key 11 false c3_state) ∧
    (editor_process_key 11 false c3_state).cx = 3 ∧
    (editor_process_key 11 false c3_state).rows.length = 0 ∧
    (editor_process_key 11 false c3_state).cy = 0 := by
  exact ⟨by decide, by decide, by decide, by decide, by decide⟩

/-! ## C4: the rx → cx → rx round trip -/

/-- Claim C4's counterexample: on the one-character row `"\t"` (render
length 8) and rendered position `r = 3`, `editor_row_rx_to_cx` returns
cursor 0 and `editor_row_cx_to_rx` maps it back to rendered position 0,
which is strictly below 3 — refuting
`editor_row_cx_to_rx(row, editor_row_rx_to_cx(row, r)) ≥ r`. -/
theorem cx_rx_roundtrip_counterexample :
    3 < (render_chars [9]).length ∧
    editor_row_rx_to_cx [9] 3 = 0 ∧
    editor_row_cx_to_rx [9] (editor_row_rx_to_cx [9] 3) < 3 := by
  exact ⟨by decide, by decide, by decide⟩

theorem cx_to_rx_aux_rx_to_cx_le (chars : List Nat) (t : Nat) :
    ∀ rx, rx ≤ t → cx_to_rx_aux chars (rx_to_cx_aux chars t rx) rx ≤ t := by
  induction chars with
  | nil => intro rx h; simpa [rx_to_cx_aux, cx_to_rx_aux] using h
  | cons c rest ih =>
    intro rx h
    by_cases hgt : rx_step c rx > t
    · simp [rx_to_cx_aux, hgt, cx_to_rx_aux, h]
    · push_neg at hgt
      simp only [rx_to_cx_aux, if_neg (by omega : ¬ rx_step c rx > t)]
      simpa [cx_to_rx_aux] using ih (rx_step c rx) hgt

/-- Claim C4 (status: corrected).  The round trip through
`editor_row_rx_to_cx` is a left-rounding, not a right-rounding: for any
rendered position `r` of the row, mapping back through
`editor_row_cx_to_rx` gives the rendered start column of the character
covering `r`, which is `≤ r` (with equality exactly at character
boundaries); the claimed `≥` fails on tabs. -/
theorem cx_rx_roundtrip_le (chars : List Nat) (r : Nat)
    (_h : r < (render_chars chars).length) :
    editor_row_cx_to_rx chars (editor_row_rx_to_cx chars r) ≤ r :=
  cx_to_rx_aux_rx_to_cx_le chars r 0 (Nat.zero_le r)

theorem cx_rx_roundtrip_le_witness :
    3 < (render_chars [9]).length ∧
    editor_row_cx_to_rx [9] (editor_row_rx_to_cx [9] 3) ≤ 3 :=
  ⟨by decide, cx_rx_roundtrip_le [9] 3 (by decide)⟩

/-! ## C6: the bytes written by a save -/

theorem rows_to_string_len_eq (rows : List erow) :
    ∀ acc : Nat, rows.foldl (fun t r => t + (r.chars.length + 1)) acc =
      acc + (editor_rows_to_string rows).length := by
  induction rows with
  | nil => intro acc; simp [editor_rows_to_string]
  | cons r rest ih =>
    intro acc
    simp only [List.foldl_cons, editor_rows_to_string, List.map_cons, List.flatten_cons,
      List.length_append, List.length_cons]
    rw [ih (acc + (r.chars.length + 1))]
    simp [editor_rows_to_string]
    omega

/-- Claim C6 (status: confirmed).  The save buffer of
`editor_rows_to_string` is each row's `chars` followed by exactly one
newline byte; the `totlen` the function computes (and which
`editor_save` passes to `ftruncate` and `write`) equals the buffer's
length, namely the sum of the row sizes plus one per row.  Starting from
an empty buffer, typing `abc`, ENTER, `de` through the dispatcher and
saving produces exactly the seven bytes `abc\nde\n`. -/
theorem rows_to_string_format :
    (∀ rows : List erow,
      editor_rows_to_string rows = (rows.map (fun r => r.chars ++ [10])).flatten ∧
      editor_rows_to_string_len rows = (editor_rows_to_string rows).length ∧
      editor_rows_to_string_len rows =
        (rows.map (fun r => r.chars.length)).sum + rows.length) ∧
    editor_rows_to_string c6_state.rows = [97, 98, 99, 10, 100, 101, 10] := by
  constructor
  · intro rows
    refine ⟨rfl, by simpa using rows_to_string_len_eq rows 0, ?_⟩
    rw [editor_rows_to_string_len, rows_to_string_len_eq rows 0, editor_rows_to_string]
    simp [List.length_flatten, Function.comp]
    induction rows with
    | nil => simp
    | cons r rest ih => simp [ih]; omega
  · decide

/-! ## C7: `editor_save` and the dirty flag -/

theorem update_hl_frame (at_ : Nat) (s : editor_config) :
    (editor_update_hl at_ s).dirty = s.dirty ∧
    (editor_update_hl at_ s).status_msg = s.status_msg ∧
    (editor_update_hl at_ s).filename = s.filename := ⟨rfl, rfl, rfl⟩

theorem foldl_update_hl_frame (l : List Nat) :
    ∀ s : editor_config,
      ((l.foldl (fun st fr => editor_update_hl fr st) s).dirty = s.dirty ∧
       (l.foldl (fun st fr => editor_update_hl fr st) s).status_msg = s.status_msg) := by
  induction l with
  | nil => intro s; exact ⟨rfl, rfl⟩
  | cons x xs ih => intro s; simpa using ih (editor_update_hl x s)

theorem select_hl_frame (s : editor_config) :
    (editor_select_hl s).dirty = s.dirty ∧ (editor_select_hl s).status_msg = s.status_msg := by
  unfold editor_select_hl
  cases s.filename with
  | none => exact ⟨rfl, rfl⟩
  | some fname =>
    simp only []
    split
    · exact foldl_update_hl_frame _ _
    · exact ⟨rfl, rfl⟩

/-- Claim C7 (status: confirmed).  For a dirty buffer, `editor_save`
clears `dirty` exactly when a filename is available (either already
present or obtained from the prompt) and `open`, `ftruncate` and the
full-length `write` all succeed; on every other path `dirty` stays true
and a (non-empty) status message is set; in every case the function
returns to the caller rather than terminating the editor. -/
theorem editor_save_dirty_iff (env : save_env) (s : editor_config) (hd : s.dirty = true) :
    ((editor_save env s).dirty = false ↔
      ((s.filename.isSome ∨ env.prompt_result.isSome) ∧
        env.open_ok = true ∧ env.truncate_ok = true ∧ env.write_ok = true)) ∧
    ((editor_save env s).dirty = true → (editor_save env s).status_msg ≠ "") := by
  unfold editor_save editor_save_with_filename
  cases hf : s.filename with
  | none =>
    cases hp : env.prompt_result with
    | none =>
      simp only [hf, hp]
      refine ⟨by simp [hd], fun _ => by simp⟩
    | some fn =>
      simp only [hf, hp]
      rcases ho : env.open_ok with _ | _ <;> rcases ht : env.truncate_ok with _ | _ <;>
        rcases hw : env.write_ok with _ | _ <;>
        simp [ho, ht, hw, hd, (select_hl_frame _).1, (select_hl_frame _).2]
  | some fn =>
    simp only [hf]
    rcases ho : env.open_ok with _ | _ <;> rcases ht : env.truncate_ok with _ | _ <;>
      rcases hw : env.write_ok with _ | _ <;>
      simp [ho, ht, hw, hd, (select_hl_frame _).1, (select_hl_frame _).2]

theorem editor_save_dirty_iff_witness :
    ((editor_save env_fail c7_state).dirty = false ↔
      ((c7_state.filename.isSome ∨ env_fail.prompt_result.isSome) ∧
        env_fail.open_ok = true ∧ env_fail.truncate_ok = true ∧ env_fail.write_ok = true)) ∧
    ((editor_save env_fail c7_state).dirty = true →
      (editor_save env_fail c7_state).status_msg ≠ "") :=
  editor_save_dirty_iff env_fail c7_state rfl

/-! ## C5: `desired_rx` across vertical motion -/

theorem rx_to_cx_aux_le (chars : List Nat) (t : Nat) :
    ∀ rx, rx_to_cx_aux chars t rx ≤ chars.length := by
  induction chars with
  | nil => intro rx; simp [rx_to_cx_aux]
  | cons c rest ih =>
    intro rx
    simp only [rx_to_cx_aux, List.length_cons]
    split
    · omega
    · have := ih (rx_step c rx)
      omega

theorem rx_to_cx_le (chars : List Nat) (t : Nat) :
    editor_row_rx_to_cx chars t ≤ chars.length :=
  rx_to_cx_aux_le chars t 0

/-- The cursor snap of `editor_move_cursor` never fires after a
vertical `cx` assignment, because `editor_row_rx_to_cx` is bounded by
the row length. -/
theorem snap_if_rx_to_cx {α : Type _} (ch : List Nat) (t : Nat) (x y : α) :
    (if editor_row_rx_to_cx ch t > ch.length then x else y) = y :=
  if_neg (by have := rx_to_cx_le ch t; omega)

/-- On ARROW_UP/ARROW_DOWN, `editor_move_cursor` leaves the rows and
`desired_rx` alone and sets `cx` from `desired_rx` through
`editor_row_rx_to_cx` on the new row (0 past end of file); the final
snap-to-row-length never fires because `editor_row_rx_to_cx` is bounded
by the row length. -/
theorem move_cursor_vert (key : Nat) (s : editor_config)
    (hk : key = ARROW_UP ∨ key = ARROW_DOWN) :
    (editor_move_cursor key s).rows = s.rows ∧
    (editor_move_cursor key s).desired_rx = s.desired_rx ∧
    (editor_move_cursor key s).cx =
      (match s.rows[(editor_move_cursor key s).cy]? with
       | some row => editor_row_rx_to_cx row.chars s.desired_rx
       | none => 0) := by
  rcases hk with h | h <;> subst h
  · -- ARROW_UP
    by_cases hcy : s.cy > 0
    · cases hrow : s.rows[s.cy - 1]? <;>
        simp [editor_move_cursor, ARROW_UP, ARROW_LEFT, ARROW_RIGHT, ARROW_DOWN,
          hcy, hrow, snap_if_rx_to_cx]
    · cases hrow : s.rows[s.cy]? <;>
        simp [editor_move_cursor, ARROW_UP, ARROW_LEFT, ARROW_RIGHT, ARROW_DOWN,
          hcy, hrow, snap_if_rx_to_cx]
  · -- ARROW_DOWN
    by_cases hcy : s.cy < s.rows.length
    · cases hrow : s.rows[s.cy + 1]? <;>
        simp [editor_move_cursor, ARROW_UP, ARROW_LEFT, ARROW_RIGHT, ARROW_DOWN,
          hcy, hrow, snap_if_rx_to_cx]
    · cases hrow : s.rows[s.cy]? <;>
        simp [editor_move_cursor, ARROW_UP, ARROW_LEFT, ARROW_RIGHT, ARROW_DOWN,
          hcy, hrow, snap_if_rx_to_cx]

theorem desired_rx_reset_spec (s1 : editor_config) :
    (desired_rx_reset s1).desired_rx =
      (if (desired_rx_reset s1).cy < (desired_rx_reset s1).rows.length then
        editor_row_cx_to_rx
          (((desired_rx_reset s1).rows.getD (desired_rx_reset s1).cy default).chars)
          (desired_rx_reset s1).cx
       else 0) := by
  unfold desired_rx_reset
  split <;> simp_all

/-- Claim C5's counterexample: with the cursor at column 4 of the
20-character top row of `c5_state` (and `desired_rx = 4`, its rendered
position), ARROW_DOWN moves onto the 10-character row and yields
`cx = 4` — not the claimed `cx == 10`: no clamping happens because the
desired rendered column 4 fits inside the 10-character row. -/
theorem desired_rx_scenario_counterexample :
    (editor_process_key ARROW_DOWN false (c5_state 4 4)).cx = 4 ∧
    (editor_process_key ARROW_DOWN false (c5_state 4 4)).cx ≠ 10 := by
  exact ⟨by decide, by decide⟩

/-- Claim C5 (status: corrected).  Amended scenario: with the cursor at
column 14 of the 20-character row (`desired_rx = 14`), ARROW_DOWN onto
the 10-character row clamps `cx` to 10 while `desired_rx == 14` is
remembered, and a second ARROW_DOWN onto the 30-character row restores
`cx = 14`.  In general a vertical ARROW_DOWN keeps `desired_rx` and
sets `cx = editor_row_rx_to_cx(new_row, desired_rx)` (0 past end of
file); and a non-vertical dispatched key resets `desired_rx` to the
rendered position of the final cursor (0 past end of file) — for every
key except Ctrl-Q, Ctrl-S and Ctrl-F (17, 19, 6): Ctrl-Q's
dirty-buffer warning path `return`s before the reset, leaving
`desired_rx` (and the cursor) unchanged while still setting a status
message (final conjunct), and Ctrl-S/Ctrl-F perform their
environment-dependent work in `editor_save`/`editor_find`, which this
dispatcher leaves abstract. -/
theorem desired_rx_tracking :
    ((editor_process_key ARROW_DOWN false (c5_state 14 14)).cx = 10 ∧
     (editor_process_key ARROW_DOWN false (c5_state 14 14)).desired_rx = 14 ∧
     (editor_process_key ARROW_DOWN false
        (editor_process_key ARROW_DOWN false (c5_state 14 14))).cx = 14) ∧
    (∀ (s : editor_config) (g : Bool),
      (editor_process_key ARROW_DOWN g s).desired_rx = s.desired_rx ∧
      (editor_process_key ARROW_DOWN g s).cx =
        (match (editor_process_key ARROW_DOWN g s).rows[(editor_process_key ARROW_DOWN g s).cy]? with
         | some row => editor_row_rx_to_cx row.chars s.desired_rx
         | none => 0)) ∧
    (∀ (c : Nat) (g : Bool) (s : editor_config),
      c ≠ ARROW_UP → c ≠ ARROW_DOWN → c ≠ PAGE_UP → c ≠ PAGE_DOWN →
      c ≠ 17 → c ≠ 19 → c ≠ 6 →
      (editor_process_key c g s).desired_rx =
        (if (editor_process_key c g s).cy < (editor_process_key c g s).rows.length then
          editor_row_cx_to_rx
            (((editor_process_key c g s).rows.getD (editor_process_key c g s).cy default).chars)
            (editor_process_key c g s).cx
         else 0)) ∧
    (∀ (qt : Nat) (s : editor_config) (r : editor_config × Nat),
      editor_quit_key qt s = some r →
      r.1.desired_rx = s.desired_rx ∧ r.1.cx = s.cx ∧ r.1.cy = s.cy ∧
      r.1.dirty = s.dirty ∧ r.2 = qt - 1 ∧ r.1.status_msg ≠ "") := by
  refine ⟨⟨by decide, by decide, by decide⟩, ?_, ?_, ?_⟩
  · intro s g
    have hpk : editor_process_key ARROW_DOWN g s = editor_move_cursor ARROW_DOWN s := by
      simp [editor_process_key, ARROW_DOWN, ARROW_UP, ARROW_LEFT, ARROW_RIGHT,
        PAGE_UP, PAGE_DOWN, TERM_RESIZE_KEY, HOME_KEY, END_KEY, DEL_KEY]
    have h := move_cursor_vert ARROW_DOWN s (Or.inr rfl)
    rw [hpk]
    refine ⟨h.2.1, ?_⟩
    rw [h.2.2, h.1]
  · intro c g s h1 h2 h3 h4 h5 _h6 _h7
    unfold editor_process_key
    simp only []
    rw [if_neg h5, if_neg (by simp [h1, h2, h3, h4])]
    exact desired_rx_reset_spec _
  · intro qt s r hq
    unfold editor_quit_key at hq
    split at hq
    · injection hq with h
      subst h
      exact ⟨rfl, rfl, rfl, rfl, rfl,
        (by decide : ("File has unsaved changes" : String) ≠ "")⟩
    · exact absurd hq (by simp)

theorem desired_rx_tracking_witness :
    (editor_process_key HOME_KEY false (c5_state 4 4)).desired_rx =
      (if (editor_process_key HOME_KEY false (c5_state 4 4)).cy <
          (editor_process_key HOME_KEY false (c5_state 4 4)).rows.length then
        editor_row_cx_to_rx
          (((editor_process_key HOME_KEY false (c5_state 4 4)).rows.getD
            (editor_process_key HOME_KEY false (c5_state 4 4)).cy default).chars)
          (editor_process_key HOME_KEY false (c5_state 4 4)).cx
       else 0) :=
  desired_rx_tracking.2.2.1 HOME_KEY false (c5_state 4 4)
    (by decide) (by decide) (by decide) (by decide) (by decide) (by decide) (by decide)

/-! ## C9: termination of the `editor_update_syntax` cascade -/

theorem update_hl_aux_oob (syn : Option editor_syntax_def) (fuel : Nat)
    (rows : List erow) (at_ : Nat) (h : rows.length ≤ at_) :
    editor_update_hl_aux syn fuel rows at_ = rows := by
  cases fuel with
  | zero => rfl
  | succ f => simp [editor_update_hl_aux, List.getElem?_eq_none h]

theorem idx_ok_set (rows : List erow) (i : Nat) (row r' : erow)
    (hrow : rows[i]? = some row) (hidx : r'.idx = row.idx) (h : idx_ok rows) :
    idx_ok (rows.set i r') := by
  intro j hj
  rw [List.length_set] at hj
  by_cases hij : i = j
  · subst hij
    rw [list_getD_of_getElem? _ i r' default (by rw [List.getElem?_set_self (by omega)])]
    rw [hidx, ← list_getD_of_getElem? rows i row default hrow]
    exact h i hj
  · rw [list_getD_set_ne _ _ _ _ _ hij]
    exact h j hj

theorem update_hl_aux_fuel (syn : Option editor_syntax_def) :
    ∀ (k fuel at_ : Nat) (rows : List erow), idx_ok rows →
      rows.length - at_ ≤ k → rows.length - at_ ≤ fuel →
      editor_update_hl_aux syn fuel rows at_ = editor_update_hl_aux syn k rows at_ := by
  intro k
  induction k with
  | zero =>
    intro fuel at_ rows _ hk _
    rw [update_hl_aux_oob syn fuel rows at_ (by omega),
      update_hl_aux_oob syn 0 rows at_ (by omega)]
  | succ k' ih =>
    intro fuel at_ rows hidx hk hfuel
    by_cases hat : rows.length ≤ at_
    · rw [update_hl_aux_oob syn fuel rows at_ hat, update_hl_aux_oob syn _ rows at_ hat]
    · push_neg at hat
      obtain ⟨f, rfl⟩ : ∃ f, fuel = f + 1 := ⟨fuel - 1, by omega⟩
      cases hrow : rows[at_]? with
      | none =>
        have := List.getElem?_eq_none_iff.mp hrow
        omega
      | some row =>
        have hri : row.idx = (at_ : Int) := by
          rw [← list_getD_of_getElem? rows at_ row default hrow]
          exact hidx at_ hat
        cases syn with
        | none => simp [editor_update_hl_aux, hrow]
        | some sy =>
          simp only [editor_update_hl_aux, hrow]
          split
          · next hguard =>
            have hlt : ((row.idx + 1 : Int) < (rows.length : Int)) := by
              have := (Bool.and_eq_true _ _).mp hguard
              exact of_decide_eq_true this.2
            have htn : (row.idx + 1).toNat = at_ + 1 := by omega
            rw [htn]
            apply ih
            · exact idx_ok_set rows at_ row _ hrow rfl hidx
            · rw [List.length_set]; omega
            · rw [List.length_set]; omega
          · rfl

/-- Claim C9 (status: confirmed).  On any document whose rows satisfy
the index invariant, the recursive re-highlight cascade of
`editor_update_syntax` (modelled with explicit fuel in
`editor_update_hl_aux`) proceeds only to the immediately following row
and dies out after at most `num_rows - at_` re-highlights: any two fuel
values of at least `rows.length - at_` produce the same result, so the
C recursion, which has no fuel, terminates with recursion depth bounded
by the number of rows. -/
theorem editor_update_hl_terminates (syn : Option editor_syntax_def)
    (rows : List erow) (at_ f1 f2 : Nat) (hidx : idx_ok rows)
    (h1 : rows.length - at_ ≤ f1) (h2 : rows.length - at_ ≤ f2) :
    editor_update_hl_aux syn f1 rows at_ = editor_update_hl_aux syn f2 rows at_ :=
  update_hl_aux_fuel syn f2 f1 at_ rows hidx h2 h1

theorem editor_update_hl_terminates_witness :
    idx_ok (c2_state false).rows ∧
    editor_update_hl_aux (some c_hl_def) 5 (c2_state false).rows 0 =
      editor_update_hl_aux (some c_hl_def) 2 (c2_state false).rows 0 :=
  ⟨by decide, editor_update_hl_terminates (some c_hl_def) (c2_state false).rows 0 5 2
    (by decide) (by decide) (by decide)⟩

/-! ## C10 and C8: the search session -/

theorem search_frame_refl (s : editor_config) : search_frame s s :=
  ⟨rfl, rfl, rfl, rfl, rfl, rfl, rfl, rfl, rfl, rfl, rfl⟩

theorem search_frame_trans {a b c : editor_config}
    (h1 : search_frame a b) (h2 : search_frame b c) : search_frame a c := by
  obtain ⟨x1, x2, x3, x4, x5, x6, x7, x8, x9, x10, x11⟩ := h1
  obtain ⟨y1, y2, y3, y4, y5, y6, y7, y8, y9, y10, y11⟩ := h2
  exact ⟨y1.trans x1, y2.trans x2, y3.trans x3, y4.trans x4, y5.trans x5, y6.trans x6,
    y7.trans x7, y8.trans x8, y9.trans x9, y10.trans x10, y11.trans x11⟩

theorem find_loop_frame (query : List Nat) :
    ∀ (fuel : Nat) (crx : Nat) (crow : Int) (s : editor_config) (ss : search_state),
      search_frame s (editor_find_loop query fuel crx crow s ss).1 := by
  intro fuel
  induction fuel with
  | zero => intro crx crow s ss; exact search_frame_refl s
  | succ f ih =>
    intro crx crow s ss
    cases hrow : s.rows[crow.toNat]? with
    | none => simp only [editor_find_loop, hrow]; exact search_frame_refl s
    | some row =>
      cases hm : substr_from row.render crx query with
      | some match_rx =>
        simp only [editor_find_loop, hrow, hm]
        exact ⟨map_core_set_hl s.rows crow.toNat row _ hrow, rfl, rfl, rfl, rfl, rfl,
          rfl, rfl, rfl, rfl, rfl⟩
      | none =>
        simp only [editor_find_loop, hrow, hm]
        exact ih 0 _ s ss

theorem find_callback_frame (query : List Nat) (key : Nat) (s : editor_config)
    (ss : search_state) :
    search_frame s (editor_find_callback query key s ss).1 := by
  unfold editor_find_callback
  cases hsv : ss.saved_hl with
  | none =>
    simp only [hsv]
    split
    · exact find_loop_frame query _ _ _ s _
    · split
      · exact find_loop_frame query _ _ _ s _
      · split
        · exact search_frame_refl s
        · exact find_loop_frame query _ _ _ s _
  | some sv =>
    simp only [hsv]
    cases hrow : s.rows[ss.saved_hl_row]? with
    | none =>
      simp only [hrow]
      split
      · exact find_loop_frame query _ _ _ s _
      · split
        · exact find_loop_frame query _ _ _ s _
        · split
          · exact search_frame_refl s
          · exact find_loop_frame query _ _ _ s _
    | some row =>
      simp only [hrow]
      have hframe1 : search_frame s
          { s with rows := s.rows.set ss.saved_hl_row { row with hl := sv } } :=
        ⟨map_core_set_hl s.rows ss.saved_hl_row row sv hrow, rfl, rfl, rfl, rfl, rfl,
          rfl, rfl, rfl, rfl, rfl⟩
      split
      · exact search_frame_trans hframe1 (find_loop_frame query _ _ _ _ _)
      · split
        · exact search_frame_trans hframe1 (find_loop_frame query _ _ _ _ _)
        · split
          · exact hframe1
          · exact search_frame_trans hframe1 (find_loop_frame query _ _ _ _ _)

theorem map_chars_of_core {rows rows' : List erow}
    (h : rows'.map row_core = rows.map row_core) :
    rows'.map erow.chars = rows.map erow.chars := by
  have h2 := congrArg (List.map (fun t : Int × List Nat × List Nat × Bool => t.2.1)) h
  simpa [List.map_map, Function.comp, row_core] using h2

theorem map_render_of_core {rows rows' : List erow}
    (h : rows'.map row_core = rows.map row_core) :
    rows'.map erow.render = rows.map erow.render := by
  have h2 := congrArg (List.map (fun t : Int × List Nat × List Nat × Bool => t.2.2.1)) h
  simpa [List.map_map, Function.comp, row_core] using h2

theorem map_sizes_of_core {rows rows' : List erow}
    (h : rows'.map row_core = rows.map row_core) :
    rows'.map (fun r => r.chars.length) = rows.map (fun r => r.chars.length) := by
  have h2 := congrArg (List.map List.length) (map_chars_of_core h)
  simpa [List.map_map, Function.comp] using h2

/-- Claim C10 (status: confirmed).  For every query string, key and
search-callback state, `editor_find_callback` leaves every row's
`chars` (hence its `size`) and `render` unchanged and leaves `dirty`
unchanged — a search session touches only `cx`, `cy`, `row_off` and
the rows' `hl` bytes, never the buffer text (also `col_off`, the
filename and the active highlight entry are untouched). -/
theorem editor_find_callback_preserves_text (query : List Nat) (key : Nat)
    (s : editor_config) (ss : search_state) :
    (editor_find_callback query key s ss).1.rows.map erow.chars = s.rows.map erow.chars ∧
    (editor_find_callback query key s ss).1.rows.map (fun r => r.chars.length) =
      s.rows.map (fun r => r.chars.length) ∧
    (editor_find_callback query key s ss).1.rows.map erow.render = s.rows.map erow.render ∧
    (editor_find_callback query key s ss).1.dirty = s.dirty ∧
    (editor_find_callback query key s ss).1.col_off = s.col_off ∧
    (editor_find_callback query key s ss).1.filename = s.filename ∧
    (editor_find_callback query key s ss).1.syn = s.syn := by
  obtain ⟨hc, hd, hco, _, _, hf, _, hsy, _, _, _⟩ := find_callback_frame query key s ss
  exact ⟨map_chars_of_core hc, map_sizes_of_core hc, map_render_of_core hc, hd, hco, hf, hsy⟩

theorem find_inv_rows_eq {s0 s s' : editor_config} {ss : search_state}
    (h : s'.rows = s.rows) (hss : find_inv s0 s ss) : find_inv s0 s' ss := by
  unfold find_inv at hss ⊢
  rw [h]
  exact hss

theorem find_loop_inv (s0 : editor_config) (query : List Nat) :
    ∀ (fuel crx : Nat) (crow : Int) (s : editor_config) (ss : search_state),
      find_inv s0 s ss → ss.saved_hl = none →
      find_inv s0 (editor_find_loop query fuel crx crow s ss).1
        (editor_find_loop query fuel crx crow s ss).2 := by
  intro fuel
  induction fuel with
  | zero => intro crx crow s ss hinv _; exact hinv
  | succ f ih =>
    intro crx crow s ss hinv hsv
    cases hrow : s.rows[crow.toNat]? with
    | none => simp only [editor_find_loop, hrow]; exact hinv
    | some row =>
      cases hm : substr_from row.render crx query with
      | none => simp only [editor_find_loop, hrow, hm]; exact ih 0 _ s ss hinv hsv
      | some match_rx =>
        simp only [editor_find_loop, hrow, hm]
        obtain ⟨hcore, hhls⟩ := hinv
        rw [hsv] at hhls
        have hlt : crow.toNat < s.rows.length := (List.getElem?_eq_some_iff.mp hrow).1
        refine ⟨(map_core_set_hl s.rows crow.toNat row _ hrow).trans hcore, ?_, ?_⟩
        · simpa [List.length_set] using hlt
        · rw [map_hl_set, List.set_set, list_set_self]
          · exact hhls
          · rw [List.getElem?_map, hrow]; rfl

theorem find_callback_inv (s0 : editor_config) (query : List Nat) (key : Nat)
    (s : editor_config) (ss : search_state) (hinv : find_inv s0 s ss) :
    find_inv s0 (editor_find_callback query key s ss).1
      (editor_find_callback query key s ss).2 ∧
    ((key = 27 ∨ key = 3) →
      (editor_find_callback query key s ss).2.saved_hl = none) := by
  unfold editor_find_callback
  cases hsv : ss.saved_hl with
  | none =>
    simp only [hsv]
    have hinvN : s.rows.map erow.hl = s0.rows.map erow.hl := by
      have h2 := hinv.2
      rwa [hsv] at h2
    split
    · next harr =>
      refine ⟨find_loop_inv s0 query _ _ _ s _ ⟨hinv.1, hinvN⟩ rfl, fun h27 => ?_⟩
      rcases h27 with h | h <;> rcases harr with h
        | h <;> subst h <;> simp [ARROW_RIGHT, ARROW_DOWN] at h
    · split
      · next harr =>
        refine ⟨find_loop_inv s0 query _ _ _ s _ ⟨hinv.1, hinvN⟩ rfl, fun h27 => ?_⟩
        rcases h27 with h | h <;> rcases harr with h
          | h <;> subst h <;> simp [ARROW_LEFT, ARROW_UP] at h
      · split
        · exact ⟨⟨hinv.1, hinvN⟩, fun _ => rfl⟩
        · refine ⟨find_loop_inv s0 query _ _ _ s _ ⟨hinv.1, hinvN⟩ rfl, fun h27 => ?_⟩
          next hctrl =>
          exfalso
          rcases h27 with h | h <;> subst h <;> simp [iscntrl_b] at hctrl
  | some sv =>
    have h2 := hinv.2
    rw [hsv] at h2
    obtain ⟨hlt, hset⟩ := h2
    obtain ⟨row, hrow⟩ : ∃ r', s.rows[ss.saved_hl_row]? = some r' :=
      ⟨_, List.getElem?_eq_getElem hlt⟩
    simp only [hsv, hrow]
    have hinv1 : find_inv s0
        { s with rows := s.rows.set ss.saved_hl_row { row with hl := sv } }
        { ss with saved_hl := none } := by
      refine ⟨(map_core_set_hl s.rows ss.saved_hl_row row sv hrow).trans hinv.1, ?_⟩
      show (s.rows.set ss.saved_hl_row { row with hl := sv }).map erow.hl =
        s0.rows.map erow.hl
      rw [map_hl_set]
      exact hset
    split
    · next harr =>
      refine ⟨find_loop_inv s0 query _ _ _ _ _ hinv1 rfl, fun h27 => ?_⟩
      rcases h27 with h | h <;> rcases harr with h
        | h <;> subst h <;> simp [ARROW_RIGHT, ARROW_DOWN] at h
    · split
      · next harr =>
        refine ⟨find_loop_inv s0 query _ _ _ _ _ hinv1 rfl, fun h27 => ?_⟩
        rcases h27 with h | h <;> rcases harr with h
          | h <;> subst h <;> simp [ARROW_LEFT, ARROW_UP] at h
      · split
        · exact ⟨hinv1, fun _ => rfl⟩
        · refine ⟨find_loop_inv s0 query _ _ _ _ _ hinv1 rfl, fun h27 => ?_⟩
          next hctrl =>
          exfalso
          rcases h27 with h | h <;> subst h <;> simp [iscntrl_b] at hctrl

theorem prompt_find_inv (s0 : editor_config) :
    ∀ (keys buf : List Nat) (s : editor_config) (ss : search_state)
      (res : Option (List Nat) × editor_config × search_state),
      find_inv s0 s ss →
      editor_prompt_find keys buf s ss = some res →
      find_inv s0 res.2.1 res.2.2 ∧ (res.1 = none → res.2.2.saved_hl = none) := by
  intro keys
  induction keys with
  | nil =>
    intro buf s ss res _ hrun
    simp [editor_prompt_find] at hrun
  | cons c keys ih =>
    intro buf s ss res hinv hrun
    have hinv1 : find_inv s0
        (editor_scroll { s with status_msg := "Search (ESC/Ctrl-C cancels)" }) ss :=
      find_inv_rows_eq rfl hinv
    simp only [editor_prompt_find] at hrun
    split at hrun
    · -- ESC / Ctrl-C: cancelled
      next hkey =>
      injection hrun with hres
      subst hres
      have hinv2 : find_inv s0
          { editor_scroll { s with status_msg := "Search (ESC/Ctrl-C cancels)" } with
            status_msg := "" } ss := find_inv_rows_eq rfl hinv1
      have hcb := find_callback_inv s0 buf c _ ss hinv2
      exact ⟨hcb.1, fun _ => hcb.2 hkey⟩
    · split at hrun
      · -- BACKSPACE with empty buffer: skip the callback
        split at hrun
        · exact ih buf _ ss res hinv1 hrun
        · have hcb := find_callback_inv s0 buf.dropLast c _ ss hinv1
          exact ih _ _ _ _ hcb.1 hrun
      · split at hrun
        · -- ENTER
          split at hrun
          · injection hrun with hres
            subst hres
            have hinv2 : find_inv s0
                { editor_scroll { s with status_msg := "Search (ESC/Ctrl-C cancels)" } with
                  status_msg := "" } ss := find_inv_rows_eq rfl hinv1
            have hcb := find_callback_inv s0 buf c _ ss hinv2
            exact ⟨hcb.1, fun hn => by simp at hn⟩
          · have hcb := find_callback_inv s0 buf c _ ss hinv1
            exact ih _ _ _ _ hcb.1 hrun
        · -- any other key
          exact ih _ _ _ _ (find_callback_inv s0 _ c _ ss hinv1).1 hrun

/-- Claim C8 (status: confirmed).  If a search session (the prompt run
with the find callback, starting from the freshly reset statics) ends
in a cancel — ESC or Ctrl-C, so the prompt returns no string — then
`editor_find` restores `cx`, `cy`, `row_off` and `col_off` exactly to
their values at entry, and every row's `hl` array equals its value at
entry (the MATCH overlay is transactional); the row cores (text,
render, idx, open-comment flags) are unchanged as well.  The
`hl_len_ok` hypothesis records that the entry state keeps `hl` parallel
to `render` (data-model invariant 1), under which the model's
wholesale restore coincides with the C `memcpy` of `r_size` bytes. -/
theorem editor_find_cancel_restores (keys : List Nat) (s0 sM : editor_config)
    (ssM : search_state) (_hwf : hl_len_ok s0.rows)
    (hrun : editor_prompt_find keys [] s0 search_state_init = some (none, sM, ssM)) :
    editor_find keys s0 =
      some ({ sM with
              cx := s0.cx, cy := s0.cy, row_off := s0.row_off, col_off := s0.col_off }) ∧
    sM.rows.map erow.hl = s0.rows.map erow.hl ∧
    sM.rows.map row_core = s0.rows.map row_core := by
  have hinv0 : find_inv s0 s0 search_state_init := ⟨rfl, rfl⟩
  have h := prompt_find_inv s0 keys [] s0 search_state_init (none, sM, ssM) hinv0 hrun
  have hsv : ssM.saved_hl = none := h.2 rfl
  have hhl : sM.rows.map erow.hl = s0.rows.map erow.hl := by
    have h2 := h.1.2
    rwa [hsv] at h2
  refine ⟨?_, hhl, h.1.1⟩
  unfold editor_find
  rw [hrun]

theorem editor_find_cancel_restores_witness :
    editor_find [27] w8state =
      some ({ w8mid with
              cx := w8state.cx, cy := w8state.cy, row_off := w8state.row_off,
              col_off := w8state.col_off }) ∧
    w8mid.rows.map erow.hl = w8state.rows.map erow.hl ∧
    w8mid.rows.map row_core = w8state.rows.map row_core :=
  editor_find_cancel_restores [27] w8state w8mid
    { start_match_rx := 0, start_match_row := 0, direction := 1,
      saved_hl_row := 0, saved_hl := none }
    (by decide) rfl
